import Mathlib

/-!
# Verification of the PyORBIT resumable sampling orchestrator

A shallow embedding of `src/pyorbit/pyorbit_emcee.py` (the `pyorbit_emcee`
driver): checkpoint probing, starting-point resolution, legacy-index
remapping, and the chunked sampling loop.  External collaborators
(the emcee sampler, the PyDE optimizer, numpy numeric routines) are
parameters of the model (`Env`); repository code not shipped under `src/`
(the `io_subroutines` loaders, `pars_input`, `get_theta_dictionary`) is
modelled from the spec and marked as such.
-/

namespace PyOrbit

/-- Ceiling division on naturals, modelling `int(np.ceil(a / b))` for the
nonnegative integer step counts used by the sampling loop (line 313). -/
def ceilDivNat (a b : Nat) : Nat := (a + b - 1) / b

/-- The three checkpoint stages probed at startup (lines 27-30). -/
inductive Stage
  | optimize
  | pyde
  | emcee
deriving DecidableEq

/-- Modelled from the spec: the on-disk state of one stage's checkpoint, as
seen by the `io_subroutines` loaders (not under `src/`): a missing file
raises `FileNotFoundError`; a present but unreadable or undeserializable
file raises some other exception; a present valid file yields its payload. -/
inductive FileState (α : Type)
  | absent
  | corrupt
  | present (v : α)
deriving DecidableEq

/-- Fatal outcomes of the driver: `quit()` on a missing library, a propagated
load exception, or a `KeyError` escaping the remap loops. -/
inductive RunError
  | emceeMissing
  | pydeMissing
  | corruptCheckpoint (stage : Stage)
  | remapKeyError
deriving DecidableEq

/-- One `try: ... load ... except FileNotFoundError: pass` block
(lines 36-56): absence yields `none` without raising; any other load
failure propagates and is fatal for the run. -/
def probe {α : Type} (st : Stage) : FileState α → Except RunError (Option α)
  | .absent => .ok none
  | .corrupt => .error (.corruptCheckpoint st)
  | .present v => .ok (some v)

/-- What a successful load yields, `none` when the file was absent. -/
def loadOf {α : Type} : FileState α → Option α
  | .present v => some v
  | _ => none

/-! ## Parameter-index remapping (lines 183-195 and 205-211)

A theta dictionary is an ordered `name → position` association list.
`remapVec` is the loop `for theta_name, theta_i in theta_dict.items():
dest[theta_i] = src[theta_dict_legacy[theta_name]]`; a name of the current
dictionary missing from the legacy one is a Python `KeyError`, modelled as
`none`.  `remapPop` is the same loop acting column-wise on a population
matrix (`population[:, theta_i] = population_legacy[:, legacy_i]`); the
source interleaves the population and bounds updates in one loop, which is
equivalent to two passes over the same name list since a `KeyError` aborts
the whole run. -/

/-- Dictionary lookup `theta_dict_legacy[theta_name]`; `none` models the
`KeyError` raised on a missing key. -/
def thetaLookup (d : List (String × Nat)) (k : String) : Option Nat :=
  (d.find? (fun p => p.1 == k)).map (fun p => p.2)

/-- The vector form of the remap loop (lines 210-211, also used for the
bounds copy on line 193). -/
def remapVec {α : Type} (dflt : α) :
    List (String × Nat) → List (String × Nat) → List α → List α → Option (List α)
  | [], _, _, dest => some dest
  | (name, i) :: rest, legacy, src, dest =>
    match thetaLookup legacy name with
    | none => none
    | some j => remapVec dflt rest legacy src (dest.set i (src.getD j dflt))

/-- Column `j` of a population matrix, `population_legacy[:, j]`. -/
def column (m : List (List Int)) (j : Nat) : List Int :=
  m.map (fun row => row.getD j 0)

/-- Writing a column: `population[:, i] = col`. -/
def setColumn (m : List (List Int)) (i : Nat) (col : List Int) : List (List Int) :=
  List.zipWith (fun row v => row.set i v) m col

/-- The population form of the remap loop (lines 190-192). -/
def remapPop :
    List (String × Nat) → List (String × Nat) → List (List Int) → List (List Int) →
      Option (List (List Int))
  | [], _, _, dest => some dest
  | (name, i) :: rest, legacy, src, dest =>
    match thetaLookup legacy name with
    | none => none
    | some j => remapPop rest legacy src (setColumn dest i (column src j))

/-- `np.zeros([nwalkers, ndim])` (lines 187-188). -/
def zerosPop (nwalkers ndim : Nat) : List (List Int) :=
  List.replicate nwalkers (List.replicate ndim 0)

/-! ## Data model

`mc.emcee_parameters` and `mc.pyde_parameters` are Python dicts; the fields
kept here are the keys the orchestrator reads.  `use_threading_pool` is a
plain `Bool`: the `.get('use_threading_pool', False)` normalisations on
lines 171-175 (set the key to `False` when absent or falsy) are the
identity on an always-present Bool field.  `version` is
`emcee.__version__[0]`, a single character. -/

structure EmceeParams where
  nsteps : Nat
  nburn : Nat
  thin : Nat
  nsave : Nat
  npop_mult : Nat
  nwalkers : Nat
  version : Char
  use_threading_pool : Bool
  shutdown_jitter : Bool
  /-- A stored completed-step counter that may survive in a pickled
  container; line 70 overwrites it rather than trusting it. -/
  completed_nsteps : Nat
deriving DecidableEq

structure PydeParams where
  ngen : Nat
  use_threading_pool : Bool
  shutdown_jitter : Bool
deriving DecidableEq

/-- The model container, restricted to the fields the orchestrator reads.
`theta_dictionary` stands for `results_analysis.get_theta_dictionary(mc)`.
Modelled from the spec: `get_theta_dictionary` (in `results_analysis`, not
under `src/`) deterministically builds the name-to-position ParameterIndex
from the container's configured parameter set, so it is carried as a field
of the container it is derived from. -/
structure ModelContainer where
  emcee_parameters : EmceeParams
  pyde_parameters : PydeParams
  ndim : Nat
  bounds : List (Int × Int)
  starting_point_flag : Bool
  recenter_bounds_flag : Bool
  /-- `mc.starting_point` as produced by `mc.create_starting_point()`
  from the user-declared values in the YAML configuration. -/
  starting_point : List Int
  theta_dictionary : List (String × Nat)
deriving DecidableEq

/-- Payload of `pyde_load_from_cpickle` (line 37). -/
structure PydeCkpt where
  mc : ModelContainer
  population : List (List Int)
  starting_point : List Int
  theta_dict : List (String × Nat)
deriving DecidableEq

/-- Payload of `emcee_load_from_cpickle` (lines 44-46).  `state` is the
sampler's opaque random-stream state (a sentinel here); `chainSteps` is
`sampler_chain.shape[1]`; `sampler` is the pickled sampler handle, `none`
for a legacy checkpoint (the `elif not sampler` test on line 109). -/
structure EmceeCkpt where
  mc : ModelContainer
  starting_point : List Int
  population : List (List Int)
  state : Nat
  chainSteps : Nat
  theta_dict : List (String × Nat)
  sampler : Option Nat
deriving DecidableEq

/-- Payload of `starting_point_load_from_cpickle` (line 52). -/
structure OptCkpt where
  starting_point : List Int
  previous_boundaries : List (Int × Int)
  theta_dict : List (String × Nat)
deriving DecidableEq

/-- Modelled from the spec: the current run configuration as resolved by
`pars_input`/`model_setup`/`create_variables_bounds` (none under `src/`).
`freshMC` is the container a fresh run builds on lines 129-143; `nsteps`
and `thin` are the configured sampler controls that
`pars_input(..., reload_emcee=True)` (line 74) re-applies to a reloaded
container. -/
structure Config where
  freshMC : ModelContainer
  nsteps : Nat
  thin : Nat
deriving DecidableEq

/-- The external collaborators (spec section 6): library availability, the
emcee version string's first character, and the numeric routines the
orchestrator calls but never inspects. -/
structure Env where
  emceeInstalled : Bool
  pydeInstalled : Bool
  emceeVersionMajor : Char
  /-- Population synthesis by jitter (lines 217-220):
  `nwalkers` rows of `np.random.normal(starting_point, 0.0000001)`. -/
  synthPop : Nat → List Int → List (List Int)
  /-- `DiffEvol(mc, bounds, nwalkers, maximize=True).optimize(ngen)`,
  yielding `de.population` (lines 245-265). -/
  pydeOptimize : List (Int × Int) → Nat → List (List Int)
  /-- `np.median(population, axis=0)`. -/
  medianPop : List (List Int) → List Int
  /-- `mc.recenter_bounds(starting_point)` (line 275). -/
  recenterBounds : List (Int × Int) → List Int → List (Int × Int)
  /-- `mc.fix_population(starting_point, population)` (line 276). -/
  fixPopulation : List Int → List (List Int) → List (List Int)

/-! ## Observable events and run outcomes -/

/-- The externally observable side effects of one run, in order. -/
inductive Event
  | pydeOptimizeRun
  | pydeSaveOrig
  | pydeSave
  | runMcmc (steps : Nat) (usedPool : Bool)
  | emceeSave (sampled : Nat)
  | samplerReload
  | dummyFile
deriving DecidableEq

/-- Which starting-point-resolution case fed the sampling loop. -/
inductive StartBranch
  | resumeEmcee
  | resumePyde
  | fromOptimize
  | fromUser
  | fallbackPyde
deriving DecidableEq

/-- The run state at entry of the sampling section (line 292 onward),
together with the events already emitted by the resolution phase. -/
structure LoopEntry where
  branch : StartBranch
  mc : ModelContainer
  population : List (List Int)
  startingPoint : List Int
  theta : Option (List (String × Nat))
  state : Option Nat
  completedUsed : Option Nat
  sampled0 : Nat
  todo : Nat
  preEvents : List Event
deriving DecidableEq

/-- The trace of a run that reached the sampling section. -/
structure SampleTrace where
  branch : StartBranch
  mcAtLoop : ModelContainer
  populationAtLoop : List (List Int)
  startingPointAtLoop : List Int
  thetaAtLoop : Option (List (String × Nat))
  stateAtLoop : Option Nat
  completedUsed : Option Nat
  sampledStart : Nat
  nstepsTodo : Nat
  events : List Event
deriving DecidableEq

/-- A successful run: the completion short-circuit (lines 89-107), the
legacy-checkpoint limitation return (lines 109-114), or a full pass
through the sampling section. -/
inductive RunResult
  | alreadyComplete (mc : ModelContainer) (completed : Nat)
  | cannotResume (mc : ModelContainer) (completed : Nat)
  | sampled (t : SampleTrace)
deriving DecidableEq

/-! ## The sampling section (lines 292-404) -/

/-- One pass of the chunked loop body (lines 315-359): run exactly `nsave`
steps, persist with `sampled += nsave`, reload the sampler from the
just-written checkpoint. -/
def chunkEvents (nsave : Nat) (usePool : Bool) : Nat → Nat → List Event
  | _, 0 => []
  | sampled0, niter + 1 =>
      .runMcmc nsave usePool :: .emceeSave (sampled0 + nsave) :: .samplerReload ::
        chunkEvents nsave usePool (sampled0 + nsave) niter

/-- The sampling loop (lines 310-397): with `nsave > 0`,
`niter = ceil(nsteps_todo / nsave)` chunks of exactly `nsave` steps each;
otherwise a single `run_mcmc` of `nsteps_todo` steps followed by one save. -/
def loopEvents (mc : ModelContainer) (sampled0 todo : Nat) : List Event :=
  if 0 < mc.emcee_parameters.nsave then
    chunkEvents mc.emcee_parameters.nsave mc.emcee_parameters.use_threading_pool
      sampled0 (ceilDivNat todo mc.emcee_parameters.nsave)
  else
    [.runMcmc todo mc.emcee_parameters.use_threading_pool, .emceeSave (sampled0 + todo)]

/-- Assemble the trace of a run that reaches the sampling section: the
resolution phase's events, then the loop, then the completion marker
(`emcee_create_dummy_file`, line 404). -/
def runSamplingPhase (e : LoopEntry) : SampleTrace :=
  { branch := e.branch
    mcAtLoop := e.mc
    populationAtLoop := e.population
    startingPointAtLoop := e.startingPoint
    thetaAtLoop := e.theta
    stateAtLoop := e.state
    completedUsed := e.completedUsed
    sampledStart := e.sampled0
    nstepsTodo := e.todo
    events := e.preEvents ++ loopEvents e.mc e.sampled0 e.todo ++ [.dummyFile] }

/-! ## Starting-point resolution (lines 64-305) -/

/-- Lines 70-71: the completed step count recomputed from the chain
history, `int(sampler_chain.shape[1] * mc.emcee_parameters['thin'])`,
using the thinning factor stored in the reloaded container. -/
def completedSteps (ec : EmceeCkpt) : Nat :=
  ec.chainSteps * ec.mc.emcee_parameters.thin

/-- The reloaded container after line 70 (recomputed counter written back)
and line 74 (`pars_input(config_in, mc, input_datasets, reload_emcee=True)`).
Modelled from the spec: `pars_input` with `reload_emcee=True` (not under
`src/`) re-applies the current configuration's sampler controls (target
step count, thinning) and rebuilds the ParameterIndex from the current
parameter set. -/
def resumedContainerPre (cfg : Config) (ec : EmceeCkpt) : ModelContainer :=
  { ec.mc with
    emcee_parameters :=
      { ec.mc.emcee_parameters with
        completed_nsteps := completedSteps ec
        nsteps := cfg.nsteps
        thin := cfg.thin }
    theta_dictionary := cfg.freshMC.theta_dictionary }

/-- Lines 168-169: an emcee major version of `'2'` cannot use the
multiprocessing pool, so the flag is forced off before sampling. -/
def poolVersionCheck (mc : ModelContainer) : ModelContainer :=
  if mc.emcee_parameters.version = '2' then
    { mc with
      emcee_parameters := { mc.emcee_parameters with use_threading_pool := false } }
  else mc

/-- The container that enters the sampling loop on the resume path
(after the pool-version check on lines 168-169). -/
def resumedContainer (cfg : Config) (ec : EmceeCkpt) : ModelContainer :=
  poolVersionCheck (resumedContainerPre cfg ec)

/-- Loop-entry state of the ensemble-resume branch (lines 116-125 and the
`pass` on lines 178-180): the checkpoint's population, starting point,
theta dictionary and sampler state are used as loaded — except that the
optimize-stage load on lines 51-56, which runs after the emcee load,
overwrites `starting_point` and `theta_dict` when that checkpoint exists. -/
def resumeEntry (cfg : Config) (optLoad : Option OptCkpt) (ec : EmceeCkpt) : LoopEntry :=
  { branch := .resumeEmcee
    mc := resumedContainer cfg ec
    population := ec.population
    startingPoint :=
      match optLoad with
      | some oc => oc.starting_point
      | none => ec.starting_point
    theta :=
      some (match optLoad with
            | some oc => oc.theta_dict
            | none => ec.theta_dict)
    state := some ec.state
    completedUsed := some (completedSteps ec)
    sampled0 := completedSteps ec
    todo := (resumedContainerPre cfg ec).emcee_parameters.nsteps - completedSteps ec
    preEvents := [] }

/-- The `if reloaded_emcee:` block (lines 67-125): completion
short-circuit, legacy-checkpoint limitation, or continuation. -/
def resumeEmceePath (cfg : Config) (optLoad : Option OptCkpt) (ec : EmceeCkpt) :
    Except RunError RunResult :=
  if (resumedContainerPre cfg ec).emcee_parameters.nsteps ≤ completedSteps ec then
    .ok (.alreadyComplete (resumedContainerPre cfg ec) (completedSteps ec))
  else if ec.sampler = none then
    .ok (.cannotResume (resumedContainerPre cfg ec) (completedSteps ec))
  else
    .ok (.sampled (runSamplingPhase (resumeEntry cfg optLoad ec)))

/-- The fresh container built on lines 129-151: `pars_input` and setup
(the `Config.freshMC` template), the emcee version recorded from the
installed library (line 137), and the walker count `ndim * npop_mult`
rounded up to even (lines 148-151). -/
def freshMC (env : Env) (cfg : Config) : ModelContainer :=
  let mc0 := cfg.freshMC
  let nw0 := mc0.ndim * mc0.emcee_parameters.npop_mult
  let nw := if nw0 % 2 = 1 then nw0 + 1 else nw0
  { mc0 with
    emcee_parameters :=
      { mc0.emcee_parameters with
        version := env.emceeVersionMajor
        nwalkers := nw } }

/-- The fresh container after the pool-version check (lines 168-169). -/
def freshPoolMC (env : Env) (cfg : Config) : ModelContainer :=
  poolVersionCheck (freshMC env cfg)

/-- The two remap passes of the pyde-resume branch (lines 190-193):
population columns and bounds per current name, both failing on the same
first missing name. -/
def pydeRemapResult (mc : ModelContainer) (legacyTheta : List (String × Nat))
    (prevBounds : List (Int × Int)) (srcPop : List (List Int)) :
    Option (List (List Int) × List (Int × Int)) :=
  match remapPop mc.theta_dictionary legacyTheta srcPop
          (zerosPop mc.emcee_parameters.nwalkers mc.ndim),
        remapVec ((0 : Int), (0 : Int)) mc.theta_dictionary legacyTheta
          prevBounds mc.bounds with
  | some pop, some bds => some (pop, bds)
  | _, _ => none

/-- Loop-entry state of the pyde-resume branch (lines 181-201). -/
def pydeEntry (env : Env) (mc : ModelContainer) (pop : List (List Int))
    (bds : List (Int × Int)) : LoopEntry :=
  { branch := .resumePyde
    mc := { mc with bounds := bds }
    population := pop
    startingPoint := env.medianPop pop
    theta := some mc.theta_dictionary
    state := none
    completedUsed := none
    sampled0 := 0
    todo := mc.emcee_parameters.nsteps
    preEvents := [] }

/-- Loop-entry state of the optimize-resume and user-starting-point
branches (lines 203-226): a synthetic population jittered around the
starting vector. -/
def jitterEntry (env : Env) (mc : ModelContainer) (br : StartBranch)
    (sp : List Int) (theta : Option (List (String × Nat))) : LoopEntry :=
  { branch := br
    mc := mc
    population := env.synthPop mc.emcee_parameters.nwalkers sp
    startingPoint := sp
    theta := theta
    state := none
    completedUsed := none
    sampled0 := 0
    todo := mc.emcee_parameters.nsteps
    preEvents := [] }

/-- Loop-entry state of the PyDE fallback (lines 228-285): invoke the
optimizer, optionally recenter bounds and fix the population (saving the
original first, lines 271-279), then always persist the pyde checkpoint
(line 281). -/
def fallbackEntry (env : Env) (mc : ModelContainer) : LoopEntry :=
  let pop0 := env.pydeOptimize mc.bounds mc.emcee_parameters.nwalkers
  let sp0 := env.medianPop pop0
  if mc.recenter_bounds_flag then
    let bds := env.recenterBounds mc.bounds sp0
    let pop := env.fixPopulation sp0 pop0
    { branch := .fallbackPyde
      mc := { mc with bounds := bds }
      population := pop
      startingPoint := env.medianPop pop
      theta := some mc.theta_dictionary
      state := none
      completedUsed := none
      sampled0 := 0
      todo := mc.emcee_parameters.nsteps
      preEvents := [.pydeOptimizeRun, .pydeSaveOrig, .pydeSave] }
  else
    { branch := .fallbackPyde
      mc := mc
      population := pop0
      startingPoint := sp0
      theta := some mc.theta_dictionary
      state := none
      completedUsed := none
      sampled0 := 0
      todo := mc.emcee_parameters.nsteps
      preEvents := [.pydeOptimizeRun, .pydeSave] }

/-- The non-resume paths (lines 127-285): a fresh container, then the pyde
branch, the optimize/user branch, or the PyDE fallback.  The legacy theta
dictionary seen by the pyde branch is the `theta_dict` variable left by
the loads of lines 36-56: the optimize checkpoint's when one exists
(loaded last), otherwise the pyde checkpoint's; `previous_boundaries` was
overwritten on lines 64-65 with the pyde container's own bounds. -/
def freshOrPydePath (env : Env) (cfg : Config) (pydeLoad : Option PydeCkpt)
    (optLoad : Option OptCkpt) : Except RunError RunResult :=
  let mc := freshPoolMC env cfg
  match pydeLoad with
  | some pc =>
      let legacyTheta :=
        match optLoad with
        | some oc => oc.theta_dict
        | none => pc.theta_dict
      match pydeRemapResult mc legacyTheta pc.mc.bounds pc.population with
      | some (pop, bds) => .ok (.sampled (runSamplingPhase (pydeEntry env mc pop bds)))
      | none => .error .remapKeyError
  | none =>
      if mc.starting_point_flag || optLoad.isSome then
        match optLoad with
        | some oc =>
            match remapVec (0 : Int) mc.theta_dictionary oc.theta_dict
                    oc.starting_point oc.starting_point with
            | some sp =>
                .ok (.sampled (runSamplingPhase
                  (jitterEntry env mc .fromOptimize sp (some mc.theta_dictionary))))
            | none => .error .remapKeyError
        | none =>
            .ok (.sampled (runSamplingPhase
              (jitterEntry env mc .fromUser mc.starting_point none)))
      else if env.pydeInstalled then
        .ok (.sampled (runSamplingPhase (fallbackEntry env mc)))
      else .error .pydeMissing

/-- Resolution after the three probes: the emcee checkpoint, when present,
takes priority over everything else (`if reloaded_emcee` on lines 67 and
178 before `elif reloaded_pyde` on line 181). -/
def afterProbes (env : Env) (cfg : Config) (pydeLoad : Option PydeCkpt)
    (emceeLoad : Option EmceeCkpt) (optLoad : Option OptCkpt) :
    Except RunError RunResult :=
  match emceeLoad with
  | some ec => resumeEmceePath cfg optLoad ec
  | none => freshOrPydePath env cfg pydeLoad optLoad

/-- The whole driver `pyorbit_emcee(config_in, ...)`: the emcee import
guard (lines 19-23), the three checkpoint probes in source order
(pyde, emcee, optimize; lines 36-56), then resolution and sampling. -/
def pyorbit_emcee (env : Env) (cfg : Config) (pydeFile : FileState PydeCkpt)
    (emceeFile : FileState EmceeCkpt) (optFile : FileState OptCkpt) :
    Except RunError RunResult :=
  if env.emceeInstalled = false then .error .emceeMissing
  else
    Except.bind (probe .pyde pydeFile) fun pydeLoad =>
    Except.bind (probe .emcee emceeFile) fun emceeLoad =>
    Except.bind (probe .optimize optFile) fun optLoad =>
    afterProbes env cfg pydeLoad emceeLoad optLoad

/-! ## Observables -/

/-- The steps requested from `sampler.run_mcmc`, in call order. -/
def mcmcSteps (evs : List Event) : List Nat :=
  evs.filterMap (fun e =>
    match e with
    | .runMcmc s _ => some s
    | _ => none)

/-- Whether each `run_mcmc` call executed inside a multiprocessing pool. -/
def mcmcPools (evs : List Event) : List Bool :=
  evs.filterMap (fun e =>
    match e with
    | .runMcmc _ p => some p
    | _ => none)

/-- Event membership test. -/
def hasEvent (e : Event) : List Event → Bool
  | [] => false
  | x :: rest => if x = e then true else hasEvent e rest

/-- `p`-event occurring strictly before any `q`-event. -/
def occursBefore (p q : Event → Bool) : List Event → Bool
  | [] => false
  | e :: rest => if p e then true else if q e then false else occursBefore p q rest

def isPydeSaveEvent : Event → Bool
  | .pydeSave => true
  | _ => false

def isRunMcmcEvent : Event → Bool
  | .runMcmc _ _ => true
  | _ => false

/-- Events of a run outcome (the early returns emit none of the sampling
section's effects). -/
def RunResult.events : RunResult → List Event
  | .sampled t => t.events
  | _ => []

def samplerInvocations (r : RunResult) : Nat := (mcmcSteps r.events).length

def dummyFileWritten (r : RunResult) : Bool := hasEvent .dummyFile r.events

def pydeInvoked (r : RunResult) : Bool := hasEvent .pydeOptimizeRun r.events

def pydeCkptSaved (r : RunResult) : Bool := hasEvent .pydeSave r.events

def isSampled : RunResult → Bool
  | .sampled _ => true
  | _ => false

def isComplete : RunResult → Bool
  | .alreadyComplete _ _ => true
  | _ => false

def completedOf : RunResult → Option Nat
  | .alreadyComplete _ c => some c
  | .cannotResume _ c => some c
  | .sampled t => t.completedUsed

def branchOf : RunResult → Option StartBranch
  | .sampled t => some t.branch
  | _ => none

def popAtLoopOf : RunResult → Option (List (List Int))
  | .sampled t => some t.populationAtLoop
  | _ => none

def spAtLoopOf : RunResult → Option (List Int)
  | .sampled t => some t.startingPointAtLoop
  | _ => none

def thetaAtLoopOf : RunResult → Option (Option (List (String × Nat)))
  | .sampled t => some t.thetaAtLoop
  | _ => none

def nstepsTodoOf : RunResult → Option Nat
  | .sampled t => some t.nstepsTodo
  | _ => none

/-! ## List helper lemmas -/

theorem getD_set_self {α : Type} :
    ∀ (l : List α) (i : Nat) (a d : α), i < l.length → (l.set i a).getD i d = a
  | [], i, _, _, h => absurd h (by simp)
  | _ :: _, 0, _, _, _ => rfl
  | _ :: xs, i + 1, a, d, h =>
      getD_set_self xs i a d (by simp only [List.length_cons] at h; omega)

theorem getD_set_ne {α : Type} :
    ∀ (l : List α) (i j : Nat) (a d : α), i ≠ j → (l.set i a).getD j d = l.getD j d
  | [], _, _, _, _, _ => rfl
  | _ :: _, 0, 0, _, _, h => absurd rfl h
  | _ :: _, 0, _ + 1, _, _, _ => rfl
  | _ :: _, _ + 1, 0, _, _, _ => rfl
  | _ :: xs, i + 1, j + 1, a, d, h =>
      getD_set_ne xs i j a d (fun e => h (by rw [e]))

theorem getElem?_zipWith {α β γ : Type} (f : α → β → γ) :
    ∀ (as : List α) (bs : List β) (k : Nat),
      (List.zipWith f as bs)[k]? =
        match as[k]?, bs[k]? with
        | some a, some b => some (f a b)
        | _, _ => none
  | [], _, _ => by simp
  | _ :: _, [], _ => by simp
  | a :: as, b :: bs, 0 => by simp
  | a :: as, b :: bs, k + 1 => by simpa using getElem?_zipWith f as bs k

/-! ## Remap lemmas -/

/-- A current name missing from the legacy dictionary makes the whole
vector remap fail (the Python `KeyError`). -/
theorem remapVec_fail {α : Type} (dflt : α) :
    ∀ (current legacy : List (String × Nat)) (src dest : List α) (p : String × Nat),
      p ∈ current → thetaLookup legacy p.1 = none →
      remapVec dflt current legacy src dest = none := by
  intro current
  induction current with
  | nil => intro legacy src dest p hp _; exact absurd hp (by simp)
  | cons q rest ih =>
    intro legacy src dest p hp hnone
    obtain ⟨n0, i0⟩ := q
    rcases List.mem_cons.mp hp with h | h
    · subst h
      simp only [remapVec, hnone]
    · simp only [remapVec]
      cases hl : thetaLookup legacy n0 with
      | none => rfl
      | some j => exact ih legacy src _ p h hnone

/-- A current name missing from the legacy dictionary makes the whole
population remap fail as well. -/
theorem remapPop_fail :
    ∀ (current legacy : List (String × Nat)) (src dest : List (List Int))
      (p : String × Nat),
      p ∈ current → thetaLookup legacy p.1 = none →
      remapPop current legacy src dest = none := by
  intro current
  induction current with
  | nil => intro legacy src dest p hp _; exact absurd hp (by simp)
  | cons q rest ih =>
    intro legacy src dest p hp hnone
    obtain ⟨n0, i0⟩ := q
    rcases List.mem_cons.mp hp with h | h
    · subst h
      simp only [remapPop, hnone]
    · simp only [remapPop]
      cases hl : thetaLookup legacy n0 with
      | none => rfl
      | some j => exact ih legacy src _ p h hnone

/-- When every current name is found in the legacy dictionary and the
current positions are distinct, the vector remap succeeds, copies each
shared name's value from its legacy position to its current position, and
leaves every position not named by the current index at its pre-existing
destination value. -/
theorem remapVec_spec {α : Type} (dflt : α) (current : List (String × Nat)) :
    ∀ (legacy : List (String × Nat)) (src dest : List α),
      (∀ p ∈ current, (thetaLookup legacy p.1).isSome) →
      (current.map Prod.snd).Nodup →
      ∃ out, remapVec dflt current legacy src dest = some out ∧
        out.length = dest.length ∧
        (∀ (name : String) (i j : Nat), (name, i) ∈ current →
          thetaLookup legacy name = some j → i < dest.length →
          out.getD i dflt = src.getD j dflt) ∧
        (∀ i : Nat, i ∉ current.map Prod.snd → out.getD i dflt = dest.getD i dflt) := by
  induction current with
  | nil =>
    intro legacy src dest _ _
    exact ⟨dest, rfl, rfl, fun name i j hmem _ _ => absurd hmem (by simp),
      fun _ _ => rfl⟩
  | cons q rest ih =>
    intro legacy src dest hcov hnd
    obtain ⟨n0, i0⟩ := q
    have h0 : (thetaLookup legacy n0).isSome := hcov (n0, i0) (by simp)
    obtain ⟨j0, hj0⟩ := Option.isSome_iff_exists.mp h0
    have hnd' : (rest.map Prod.snd).Nodup := by
      simp only [List.map_cons, List.nodup_cons] at hnd
      exact hnd.2
    have hi0 : i0 ∉ rest.map Prod.snd := by
      simp only [List.map_cons, List.nodup_cons] at hnd
      exact hnd.1
    obtain ⟨out, hout, hlen, hcopy, hkeep⟩ :=
      ih legacy src (dest.set i0 (src.getD j0 dflt))
        (fun p hp => hcov p (List.mem_cons_of_mem _ hp)) hnd'
    refine ⟨out, ?_, ?_, ?_, ?_⟩
    · simp only [remapVec, hj0, hout]
    · rw [hlen, List.length_set]
    · intro name i j hmem hlook hlt
      rcases List.mem_cons.mp hmem with heq | hmem'
      · -- the head entry: later entries never touch `i0` (positions Nodup)
        injection heq with hn hi
        have hj : j = j0 := by
          rw [hn] at hlook
          exact Option.some.inj (hlook.symm.trans hj0)
        rw [hi, hj, hkeep i0 hi0, getD_set_self dest i0 _ dflt (hi ▸ hlt)]
      · exact hcopy name i j hmem' hlook (by rw [List.length_set]; exact hlt)
    · intro i hi
      have h1 : i0 ≠ i := fun e => hi (by simp [e])
      have h2 : i ∉ rest.map Prod.snd := fun e => hi (by simp [e])
      rw [hkeep i h2, getD_set_ne dest i0 i _ dflt h1]

/-- The population remap acts row-wise exactly like the vector remap: for
matrices with matching walker counts, row `k` of the remapped population
is the vector remap of row `k`. -/
theorem remapPop_row (current : List (String × Nat)) :
    ∀ (legacy : List (String × Nat)) (src dest : List (List Int)),
      src.length = dest.length →
      ∀ (k : Nat) (rowS rowD : List Int),
        src[k]? = some rowS → dest[k]? = some rowD →
        (remapPop current legacy src dest).map (fun out => out[k]?) =
          (remapVec (0 : Int) current legacy rowS rowD).map some := by
  induction current with
  | nil =>
    intro legacy src dest _ k rowS rowD _ hd
    simp [remapPop, remapVec, hd]
  | cons q rest ih =>
    intro legacy src dest hlen k rowS rowD hs hd
    obtain ⟨n0, i0⟩ := q
    simp only [remapPop, remapVec]
    cases hl : thetaLookup legacy n0 with
    | none => rfl
    | some j =>
      have hcol : (column src j)[k]? = some (rowS.getD j 0) := by
        simp only [column, List.getElem?_map, hs]
        rfl
      have hsetlen : (setColumn dest i0 (column src j)).length = dest.length := by
        simp [setColumn, column, List.length_zipWith, ← hlen]
      have hd' : (setColumn dest i0 (column src j))[k]? =
          some (rowD.set i0 (rowS.getD j 0)) := by
        simp only [setColumn]
        rw [getElem?_zipWith]
        simp only [hd, hcol]
      exact ih legacy src (setColumn dest i0 (column src j))
        (by rw [hsetlen, hlen]) k rowS (rowD.set i0 (rowS.getD j 0)) hs hd'

/-! ## Event-trace lemmas -/

theorem hasEvent_append (e : Event) :
    ∀ (a b : List Event), hasEvent e (a ++ b) = (hasEvent e a || hasEvent e b)
  | [], _ => rfl
  | x :: xs, b => by
    simp only [List.cons_append, hasEvent]
    split
    · rfl
    · exact hasEvent_append e xs b

theorem mcmcSteps_append (a b : List Event) :
    mcmcSteps (a ++ b) = mcmcSteps a ++ mcmcSteps b := by
  simp [mcmcSteps, List.filterMap_append]

theorem mcmcPools_append (a b : List Event) :
    mcmcPools (a ++ b) = mcmcPools a ++ mcmcPools b := by
  simp [mcmcPools, List.filterMap_append]

theorem mcmcSteps_chunkEvents (nsave : Nat) (p : Bool) :
    ∀ (s0 k : Nat), mcmcSteps (chunkEvents nsave p s0 k) = List.replicate k nsave := by
  intro s0 k
  induction k generalizing s0 with
  | zero => rfl
  | succ k ih =>
    have h := ih (s0 + nsave)
    simp only [mcmcSteps] at h ⊢
    simp [chunkEvents, List.replicate_succ, h]

theorem mcmcPools_chunkEvents (nsave : Nat) (p : Bool) :
    ∀ (s0 k : Nat), mcmcPools (chunkEvents nsave p s0 k) = List.replicate k p := by
  intro s0 k
  induction k generalizing s0 with
  | zero => rfl
  | succ k ih =>
    have h := ih (s0 + nsave)
    simp only [mcmcPools] at h ⊢
    simp [chunkEvents, List.replicate_succ, h]

theorem hasEvent_chunkEvents (e : Event) (nsave : Nat) (p : Bool)
    (h1 : e ≠ .runMcmc nsave p)
    (h2 : ∀ s : Nat, e ≠ .emceeSave s) (h3 : e ≠ .samplerReload) :
    ∀ (s0 k : Nat), hasEvent e (chunkEvents nsave p s0 k) = false := by
  intro s0 k
  induction k generalizing s0 with
  | zero => rfl
  | succ k ih =>
    simp only [chunkEvents, hasEvent]
    rw [if_neg (fun he => h1 he.symm), if_neg (fun he => h2 _ he.symm),
      if_neg (fun he => h3 he.symm)]
    exact ih _

theorem hasEvent_loopEvents_pydeOptimizeRun (mc : ModelContainer) (s0 todo : Nat) :
    hasEvent .pydeOptimizeRun (loopEvents mc s0 todo) = false := by
  unfold loopEvents
  split
  · exact hasEvent_chunkEvents _ _ _ (by intro h; cases h) (fun _ h => by cases h)
      (by intro h; cases h) _ _
  · rfl

theorem hasEvent_loopEvents_pydeSave (mc : ModelContainer) (s0 todo : Nat) :
    hasEvent .pydeSave (loopEvents mc s0 todo) = false := by
  unfold loopEvents
  split
  · exact hasEvent_chunkEvents _ _ _ (by intro h; cases h) (fun _ h => by cases h)
      (by intro h; cases h) _ _
  · rfl

theorem mcmcSteps_loopEvents (mc : ModelContainer) (s0 todo : Nat)
    (h : 0 < mc.emcee_parameters.nsave) :
    mcmcSteps (loopEvents mc s0 todo) =
      List.replicate (ceilDivNat todo mc.emcee_parameters.nsave)
        mc.emcee_parameters.nsave := by
  unfold loopEvents
  rw [if_pos h]
  exact mcmcSteps_chunkEvents _ _ _ _

theorem mcmcPools_loopEvents (mc : ModelContainer) (s0 todo : Nat) :
    mcmcPools (loopEvents mc s0 todo) =
      List.replicate (mcmcPools (loopEvents mc s0 todo)).length
        mc.emcee_parameters.use_threading_pool := by
  unfold loopEvents
  split
  · rw [mcmcPools_chunkEvents]
    simp
  · simp [mcmcPools]

/-- The trace of any run through the sampling section ends with the
completion-marker write. -/
theorem dummyFile_runSamplingPhase (e : LoopEntry) :
    hasEvent .dummyFile (runSamplingPhase e).events = true := by
  simp only [runSamplingPhase, hasEvent_append]
  simp [hasEvent]

theorem ceilDivNat_bounds (t n : Nat) (hn : 0 < n) :
    t ≤ ceilDivNat t n * n ∧ ceilDivNat t n * n < t + n := by
  unfold ceilDivNat
  have h := Nat.div_add_mod (t + n - 1) n
  have h2 : (t + n - 1) % n < n := Nat.mod_lt _ hn
  rw [Nat.mul_comm]
  set q := (t + n - 1) / n with hq
  set r := (t + n - 1) % n with hr
  set m := n * q with hm
  omega

/-! ## Container bookkeeping lemmas -/

theorem poolVersionCheck_forces (m : ModelContainer)
    (h : (poolVersionCheck m).emcee_parameters.version = '2') :
    (poolVersionCheck m).emcee_parameters.use_threading_pool = false := by
  unfold poolVersionCheck at h ⊢
  split at h
  · rw [if_pos (by assumption)]
  · rw [if_neg (by assumption)]
    exact absurd h (by assumption)

theorem poolVersionCheck_flag (m : ModelContainer) :
    (poolVersionCheck m).starting_point_flag = m.starting_point_flag := by
  unfold poolVersionCheck
  split <;> rfl

theorem poolVersionCheck_recenter (m : ModelContainer) :
    (poolVersionCheck m).recenter_bounds_flag = m.recenter_bounds_flag := by
  unfold poolVersionCheck
  split <;> rfl

theorem freshPoolMC_flag (env : Env) (cfg : Config) :
    (freshPoolMC env cfg).starting_point_flag = cfg.freshMC.starting_point_flag := by
  rw [freshPoolMC, poolVersionCheck_flag]
  rfl

theorem fallbackEntry_mcParams (env : Env) (mc : ModelContainer) :
    (fallbackEntry env mc).mc.emcee_parameters = mc.emcee_parameters := by
  unfold fallbackEntry
  split <;> rfl

theorem fallbackEntry_preEvents (env : Env) (mc : ModelContainer) :
    (fallbackEntry env mc).preEvents = [.pydeOptimizeRun, .pydeSaveOrig, .pydeSave] ∨
    (fallbackEntry env mc).preEvents = [.pydeOptimizeRun, .pydeSave] := by
  unfold fallbackEntry
  split
  · exact Or.inl rfl
  · exact Or.inr rfl

/-! ## Run inversion lemmas -/

theorem Except_bind_ok {ε α β : Type} (a : α) (f : α → Except ε β) :
    Except.bind (.ok a) f = f a := rfl

theorem Except_bind_error {ε α β : Type} (e : ε) (f : α → Except ε β) :
    Except.bind (α := α) (.error e) f = .error e := rfl

theorem probe_ok {α : Type} (st : Stage) (fs : FileState α) (h : fs ≠ .corrupt) :
    probe st fs = .ok (loadOf fs) := by
  cases fs with
  | absent => rfl
  | corrupt => exact absurd rfl h
  | present v => rfl

/-- Any successful run was reached through an intact probe sequence, and
either resumed the ensemble checkpoint or went through the fresh/pyde
path. -/
theorem run_ok_cases (env : Env) (cfg : Config) (pf : FileState PydeCkpt)
    (ef : FileState EmceeCkpt) (optF : FileState OptCkpt) (r : RunResult)
    (h : pyorbit_emcee env cfg pf ef optF = .ok r) :
    env.emceeInstalled = true ∧ pf ≠ .corrupt ∧ ef ≠ .corrupt ∧ optF ≠ .corrupt ∧
    ((∃ ec, ef = .present ec ∧ resumeEmceePath cfg (loadOf optF) ec = .ok r) ∨
     (ef = .absent ∧ freshOrPydePath env cfg (loadOf pf) (loadOf optF) = .ok r)) := by
  rw [pyorbit_emcee] at h
  split at h
  · exact absurd h (by simp)
  rename_i hE'
  have hE : env.emceeInstalled = true := by
    cases hdec : env.emceeInstalled
    · exact absurd hdec hE'
    · rfl
  have hpf : pf ≠ FileState.corrupt := by
    intro hc
    rw [hc] at h
    simp [probe, Except_bind_error] at h
  rw [probe_ok Stage.pyde pf hpf, Except_bind_ok] at h
  have hef : ef ≠ FileState.corrupt := by
    intro hc
    rw [hc] at h
    simp [probe, Except_bind_error] at h
  rw [probe_ok Stage.emcee ef hef, Except_bind_ok] at h
  have hof : optF ≠ FileState.corrupt := by
    intro hc
    rw [hc] at h
    simp [probe, Except_bind_error] at h
  rw [probe_ok Stage.optimize optF hof, Except_bind_ok] at h
  refine ⟨hE, hpf, hef, hof, ?_⟩
  cases ef with
  | corrupt => exact absurd rfl hef
  | absent => exact Or.inr ⟨rfl, h⟩
  | present ec => exact Or.inl ⟨ec, rfl, h⟩

/-- Any run that reached the sampling section did so through one of the
five loop entries, whose pre-loop events contain no sampler call and
whose container has been through the version-2 pool check. -/
theorem run_ok_sampled (env : Env) (cfg : Config) (pf : FileState PydeCkpt)
    (ef : FileState EmceeCkpt) (optF : FileState OptCkpt) (t : SampleTrace)
    (h : pyorbit_emcee env cfg pf ef optF = .ok (.sampled t)) :
    ∃ e : LoopEntry, t = runSamplingPhase e ∧
      mcmcSteps e.preEvents = [] ∧ mcmcPools e.preEvents = [] ∧
      (e.mc.emcee_parameters.version = '2' →
        e.mc.emcee_parameters.use_threading_pool = false) := by
  obtain ⟨hE, hpf, hef, hof, hcase⟩ := run_ok_cases env cfg pf ef optF _ h
  rcases hcase with ⟨ec, hef', hres⟩ | ⟨hef', hfresh⟩
  · rw [resumeEmceePath] at hres
    split at hres
    · simp at hres
    split at hres
    · simp at hres
    · have ht : runSamplingPhase (resumeEntry cfg (loadOf optF) ec) = t := by
        have := Except.ok.inj hres
        injection this
      refine ⟨resumeEntry cfg (loadOf optF) ec, ht.symm, rfl, rfl, ?_⟩
      intro hv
      exact poolVersionCheck_forces (resumedContainerPre cfg ec) hv
  · cases hpl : loadOf pf with
    | some pc =>
      rw [hpl] at hfresh
      cases hol : loadOf optF with
      | some oc =>
        rw [hol] at hfresh
        simp only [freshOrPydePath] at hfresh
        cases hm : pydeRemapResult (freshPoolMC env cfg) oc.theta_dict
            pc.mc.bounds pc.population with
        | some pr =>
          obtain ⟨pop, bds⟩ := pr
          rw [hm] at hfresh
          simp only [Except.ok.injEq, RunResult.sampled.injEq] at hfresh
          refine ⟨pydeEntry env (freshPoolMC env cfg) pop bds, hfresh.symm, rfl, rfl, ?_⟩
          intro hv
          exact poolVersionCheck_forces (freshMC env cfg) hv
        | none =>
          rw [hm] at hfresh
          simp at hfresh
      | none =>
        rw [hol] at hfresh
        simp only [freshOrPydePath] at hfresh
        cases hm : pydeRemapResult (freshPoolMC env cfg) pc.theta_dict
            pc.mc.bounds pc.population with
        | some pr =>
          obtain ⟨pop, bds⟩ := pr
          rw [hm] at hfresh
          simp only [Except.ok.injEq, RunResult.sampled.injEq] at hfresh
          refine ⟨pydeEntry env (freshPoolMC env cfg) pop bds, hfresh.symm, rfl, rfl, ?_⟩
          intro hv
          exact poolVersionCheck_forces (freshMC env cfg) hv
        | none =>
          rw [hm] at hfresh
          simp at hfresh
    | none =>
      rw [hpl] at hfresh
      cases hol : loadOf optF with
      | some oc =>
        rw [hol] at hfresh
        simp only [freshOrPydePath, Option.isSome_some, Bool.or_true, if_true] at hfresh
        cases hr : remapVec (0 : Int) (freshPoolMC env cfg).theta_dictionary
            oc.theta_dict oc.starting_point oc.starting_point with
        | some sp =>
          rw [hr] at hfresh
          simp only [Except.ok.injEq, RunResult.sampled.injEq] at hfresh
          refine ⟨jitterEntry env (freshPoolMC env cfg) .fromOptimize sp
            (some (freshPoolMC env cfg).theta_dictionary), hfresh.symm, rfl, rfl, ?_⟩
          intro hv
          exact poolVersionCheck_forces (freshMC env cfg) hv
        | none =>
          rw [hr] at hfresh
          simp at hfresh
      | none =>
        rw [hol] at hfresh
        simp only [freshOrPydePath, Option.isSome_none, Bool.or_false] at hfresh
        cases hflag : (freshPoolMC env cfg).starting_point_flag with
        | true =>
          rw [hflag] at hfresh
          simp only [if_true] at hfresh
          simp only [Except.ok.injEq, RunResult.sampled.injEq] at hfresh
          refine ⟨jitterEntry env (freshPoolMC env cfg) .fromUser
            (freshPoolMC env cfg).starting_point none, hfresh.symm, rfl, rfl, ?_⟩
          intro hv
          exact poolVersionCheck_forces (freshMC env cfg) hv
        | false =>
          rw [hflag] at hfresh
          simp only [Bool.false_eq_true, if_false] at hfresh
          cases hpi : env.pydeInstalled with
          | true =>
            rw [hpi] at hfresh
            simp only [if_true] at hfresh
            simp only [Except.ok.injEq, RunResult.sampled.injEq] at hfresh
            refine ⟨fallbackEntry env (freshPoolMC env cfg), hfresh.symm, ?_, ?_, ?_⟩
            · rcases fallbackEntry_preEvents env (freshPoolMC env cfg) with hp | hp <;>
                rw [hp] <;> rfl
            · rcases fallbackEntry_preEvents env (freshPoolMC env cfg) with hp | hp <;>
                rw [hp] <;> rfl
            · intro hv
              rw [fallbackEntry_mcParams] at hv ⊢
              exact poolVersionCheck_forces (freshMC env cfg) hv
          | false =>
            rw [hpi] at hfresh
            simp at hfresh

theorem loadOf_some {α : Type} (fs : FileState α) (v : α) (h : loadOf fs = some v) :
    fs = .present v := by
  cases fs with
  | absent => exact absurd h (by simp [loadOf])
  | corrupt => exact absurd h (by simp [loadOf])
  | present w =>
    simp only [loadOf, Option.some.injEq] at h
    rw [h]

theorem loadOf_none {α : Type} (fs : FileState α) (h : loadOf fs = none)
    (hc : fs ≠ .corrupt) : fs = .absent := by
  cases fs with
  | absent => rfl
  | corrupt => exact absurd rfl hc
  | present w => exact absurd h (by simp [loadOf])

theorem afterProbes_someEmcee (env : Env) (cfg : Config) (pydeLoad : Option PydeCkpt)
    (optLoad : Option OptCkpt) (ec : EmceeCkpt) :
    afterProbes env cfg pydeLoad (some ec) optLoad = resumeEmceePath cfg optLoad ec := rfl

theorem afterProbes_noEmcee (env : Env) (cfg : Config) (pydeLoad : Option PydeCkpt)
    (optLoad : Option OptCkpt) :
    afterProbes env cfg pydeLoad none optLoad = freshOrPydePath env cfg pydeLoad optLoad := rfl

/-- With the library installed and no corrupt checkpoint, the run is the
post-probe resolution of whatever the loads yielded. -/
theorem pyorbit_emcee_intact (env : Env) (cfg : Config) (pf : FileState PydeCkpt)
    (ef : FileState EmceeCkpt) (optF : FileState OptCkpt)
    (hE : env.emceeInstalled = true) (hpf : pf ≠ .corrupt) (hef : ef ≠ .corrupt)
    (hof : optF ≠ .corrupt) :
    pyorbit_emcee env cfg pf ef optF =
      afterProbes env cfg (loadOf pf) (loadOf ef) (loadOf optF) := by
  rw [pyorbit_emcee, if_neg (by simp [hE]), probe_ok Stage.pyde pf hpf, Except_bind_ok,
    probe_ok Stage.emcee ef hef, Except_bind_ok,
    probe_ok Stage.optimize optF hof, Except_bind_ok]

/-- Resolution phase of a sampled run, with no `run_mcmc` among the
pre-loop events. -/
theorem pydeInvoked_runSamplingPhase (e : LoopEntry) :
    pydeInvoked (.sampled (runSamplingPhase e)) = hasEvent .pydeOptimizeRun e.preEvents := by
  simp only [pydeInvoked, RunResult.events, runSamplingPhase, hasEvent_append,
    hasEvent_loopEvents_pydeOptimizeRun]
  simp [hasEvent]

theorem pydeCkptSaved_runSamplingPhase (e : LoopEntry) :
    pydeCkptSaved (.sampled (runSamplingPhase e)) = hasEvent .pydeSave e.preEvents := by
  simp only [pydeCkptSaved, RunResult.events, runSamplingPhase, hasEvent_append,
    hasEvent_loopEvents_pydeSave]
  simp [hasEvent]

/-- The exhaustive characterisation of the non-resume paths: which branch
produced the sampled trace is fixed by which loads succeeded and the
configuration's flags. -/
theorem freshOrPydePath_cases (env : Env) (cfg : Config) (pydeLoad : Option PydeCkpt)
    (optLoad : Option OptCkpt) (r : RunResult)
    (h : freshOrPydePath env cfg pydeLoad optLoad = .ok r) :
    (∃ pc pop bds, pydeLoad = some pc ∧
      r = .sampled (runSamplingPhase (pydeEntry env (freshPoolMC env cfg) pop bds))) ∨
    (∃ oc sp, pydeLoad = none ∧ optLoad = some oc ∧
      r = .sampled (runSamplingPhase (jitterEntry env (freshPoolMC env cfg) .fromOptimize sp
        (some (freshPoolMC env cfg).theta_dictionary)))) ∨
    (pydeLoad = none ∧ optLoad = none ∧
      (freshPoolMC env cfg).starting_point_flag = true ∧
      r = .sampled (runSamplingPhase (jitterEntry env (freshPoolMC env cfg) .fromUser
        (freshPoolMC env cfg).starting_point none))) ∨
    (pydeLoad = none ∧ optLoad = none ∧
      (freshPoolMC env cfg).starting_point_flag = false ∧ env.pydeInstalled = true ∧
      r = .sampled (runSamplingPhase (fallbackEntry env (freshPoolMC env cfg)))) := by
  cases pydeLoad with
  | some pc =>
    cases optLoad with
    | some oc =>
      simp only [freshOrPydePath] at h
      cases hm : pydeRemapResult (freshPoolMC env cfg) oc.theta_dict
          pc.mc.bounds pc.population with
      | some pr =>
        obtain ⟨pop, bds⟩ := pr
        rw [hm] at h
        simp only [Except.ok.injEq] at h
        exact Or.inl ⟨pc, pop, bds, rfl, h.symm⟩
      | none =>
        rw [hm] at h
        simp at h
    | none =>
      simp only [freshOrPydePath] at h
      cases hm : pydeRemapResult (freshPoolMC env cfg) pc.theta_dict
          pc.mc.bounds pc.population with
      | some pr =>
        obtain ⟨pop, bds⟩ := pr
        rw [hm] at h
        simp only [Except.ok.injEq] at h
        exact Or.inl ⟨pc, pop, bds, rfl, h.symm⟩
      | none =>
        rw [hm] at h
        simp at h
  | none =>
    cases optLoad with
    | some oc =>
      simp only [freshOrPydePath, Option.isSome_some, Bool.or_true, if_true] at h
      cases hr : remapVec (0 : Int) (freshPoolMC env cfg).theta_dictionary
          oc.theta_dict oc.starting_point oc.starting_point with
      | some sp =>
        rw [hr] at h
        simp only [Except.ok.injEq] at h
        exact Or.inr (Or.inl ⟨oc, sp, rfl, rfl, h.symm⟩)
      | none =>
        rw [hr] at h
        simp at h
    | none =>
      simp only [freshOrPydePath, Option.isSome_none, Bool.or_false] at h
      cases hflag : (freshPoolMC env cfg).starting_point_flag with
      | true =>
        rw [hflag] at h
        simp only [if_true] at h
        simp only [Except.ok.injEq] at h
        exact Or.inr (Or.inr (Or.inl ⟨rfl, rfl, rfl, h.symm⟩))
      | false =>
        rw [hflag] at h
        simp only [Bool.false_eq_true, if_false] at h
        cases hpi : env.pydeInstalled with
        | true =>
          rw [hpi] at h
          simp only [if_true] at h
          simp only [Except.ok.injEq] at h
          exact Or.inr (Or.inr (Or.inr ⟨rfl, rfl, rfl, rfl, h.symm⟩))
        | false =>
          rw [hpi] at h
          simp at h

/-- The exhaustive characterisation of the ensemble-resume path. -/
theorem resumeEmceePath_cases (cfg : Config) (optLoad : Option OptCkpt) (ec : EmceeCkpt)
    (r : RunResult) (h : resumeEmceePath cfg optLoad ec = .ok r) :
    (cfg.nsteps ≤ completedSteps ec ∧
      r = .alreadyComplete (resumedContainerPre cfg ec) (completedSteps ec)) ∨
    (completedSteps ec < cfg.nsteps ∧ ec.sampler = none ∧
      r = .cannotResume (resumedContainerPre cfg ec) (completedSteps ec)) ∨
    (completedSteps ec < cfg.nsteps ∧ ec.sampler ≠ none ∧
      r = .sampled (runSamplingPhase (resumeEntry cfg optLoad ec))) := by
  rw [resumeEmceePath] at h
  split at h
  · rename_i hc
    exact Or.inl ⟨hc, (Except.ok.inj h).symm⟩
  · rename_i hc
    split at h
    · rename_i hs
      exact Or.inr (Or.inl ⟨Nat.lt_of_not_le hc, hs, (Except.ok.inj h).symm⟩)
    · rename_i hs
      exact Or.inr (Or.inr ⟨Nat.lt_of_not_le hc, hs, (Except.ok.inj h).symm⟩)

/-! ## Concrete fixtures for witnesses and counterexamples -/

def empT : EmceeParams :=
  { nsteps := 250
    nburn := 10
    thin := 1
    nsave := 100
    npop_mult := 2
    nwalkers := 4
    version := '3'
    use_threading_pool := false
    shutdown_jitter := false
    completed_nsteps := 0 }

def ppT : PydeParams :=
  { ngen := 5
    use_threading_pool := false
    shutdown_jitter := false }

def mcT : ModelContainer :=
  { emcee_parameters := empT
    pyde_parameters := ppT
    ndim := 2
    bounds := [(0, 10), (0, 10)]
    starting_point_flag := true
    recenter_bounds_flag := false
    starting_point := [1, 2]
    theta_dictionary := [("a", 0), ("b", 1)] }

def cfgT : Config := { freshMC := mcT, nsteps := 250, thin := 1 }

def envT : Env :=
  { emceeInstalled := true
    pydeInstalled := true
    emceeVersionMajor := '3'
    synthPop := fun n sp => List.replicate n sp
    pydeOptimize := fun _ n => List.replicate n [1, 2]
    medianPop := fun pop => pop.getD 0 []
    recenterBounds := fun b _ => b
    fixPopulation := fun _ pop => pop }

/-- A completed ensemble checkpoint: 300 chain steps at thinning 1 against
a configured target of 250. -/
def ecDone : EmceeCkpt :=
  { mc := mcT
    starting_point := [7, 8]
    population := [[7, 8], [7, 8], [7, 8], [7, 8]]
    state := 42
    chainSteps := 300
    theta_dict := [("a", 0), ("b", 1)]
    sampler := some 1 }

/-- An incomplete, resumable ensemble checkpoint (100 of 250 steps done). -/
def ecC3 : EmceeCkpt :=
  { mc := mcT
    starting_point := [7, 8]
    population := [[7, 8], [9, 10]]
    state := 3
    chainSteps := 100
    theta_dict := [("a", 0), ("b", 1)]
    sampler := some 1 }

def pcC3 : PydeCkpt :=
  { mc := mcT
    population := [[55, 56]]
    starting_point := [55, 56]
    theta_dict := [("a", 0), ("b", 1)] }

def ocC3 : OptCkpt :=
  { starting_point := [99, 98]
    previous_boundaries := [(0, 1), (0, 1)]
    theta_dict := [("a", 0), ("b", 1)] }

/-- A configuration whose current parameter index swaps the two names
relative to `ecC6.theta_dict`. -/
def cfg6 : Config :=
  { freshMC := { mcT with theta_dictionary := [("a", 1), ("b", 0)] }
    nsteps := 250
    thin := 1 }

def ecC6 : EmceeCkpt :=
  { mc := mcT
    starting_point := [10, 20]
    population := [[10, 20]]
    state := 4
    chainSteps := 100
    theta_dict := [("a", 0), ("b", 1)]
    sampler := some 1 }

/-- A configuration with no user-declared starting point, so that a run
without checkpoints falls through to PyDE. -/
def cfgF : Config :=
  { freshMC := { mcT with starting_point_flag := false }
    nsteps := 250
    thin := 1 }

/-- A pickled container recording emcee major version 2 with the
worker-pool flag still on. -/
def mc2T : ModelContainer :=
  { mcT with
    emcee_parameters := { empT with version := '2', use_threading_pool := true } }

def ecC10 : EmceeCkpt :=
  { mc := mc2T
    starting_point := [7, 8]
    population := [[7, 8]]
    state := 5
    chainSteps := 100
    theta_dict := [("a", 0), ("b", 1)]
    sampler := some 1 }

/-- Total extractors over run outcomes, for naming concrete results. -/
def resultOf (x : Except RunError RunResult) : RunResult :=
  match x with
  | .ok r => r
  | .error _ => .cannotResume mcT 0

def traceOf (x : Except RunError RunResult) : SampleTrace :=
  match x with
  | .ok (.sampled t) => t
  | _ =>
    { branch := .fromUser
      mcAtLoop := mcT
      populationAtLoop := []
      startingPointAtLoop := []
      thetaAtLoop := none
      stateAtLoop := none
      completedUsed := none
      sampledStart := 0
      nstepsTodo := 0
      events := [] }

def tC1 : SampleTrace := traceOf (pyorbit_emcee envT cfgT .absent .absent .absent)

def rC9 : RunResult := resultOf (pyorbit_emcee envT cfgT .absent .absent .absent)

def rC5 : RunResult := resultOf (pyorbit_emcee envT cfgT .absent (.present ecDone) .absent)

def rC3 : RunResult :=
  resultOf (pyorbit_emcee envT cfgT (.present pcC3) (.present ecC3) .absent)

def tC3 : SampleTrace :=
  traceOf (pyorbit_emcee envT cfgT (.present pcC3) (.present ecC3) .absent)

def tC6 : SampleTrace := traceOf (pyorbit_emcee envT cfg6 .absent (.present ecC6) .absent)

/-- An incomplete-ensemble resume with a pyde and an optimize checkpoint
also present, exercising the overwrite of lines 51-56. -/
def tC6opt : SampleTrace :=
  traceOf (pyorbit_emcee envT cfgT (.present pcC3) (.present ecC3) (.present ocC3))

def rC7 : RunResult := resultOf (pyorbit_emcee envT cfgF .absent .absent .absent)

def tC10 : SampleTrace :=
  traceOf (pyorbit_emcee envT cfgT .absent (.present ecC10) .absent)

/-! ## Claim C1 -/

/-- C1, counterexample: a fresh run with 250 remaining steps and chunk
size 100 executes three chunks of 100 steps each — 300 steps in total,
not the claimed 100+100+50 = 250; steps beyond the remaining count are
executed. -/
theorem C1_counterexample :
    (pyorbit_emcee envT cfgT .absent .absent .absent).map
        (fun r => (mcmcSteps r.events, nstepsTodoOf r)) =
      .ok ([100, 100, 100], some 250) := rfl

/-- C1, amended: with chunk size `nsave > 0` and `nsteps_todo` remaining
steps, the sampling driver executes `ceil(nsteps_todo / nsave)` chunks of
exactly `nsave` steps each — including the last — so the executed total is
`ceil(nsteps_todo / nsave) * nsave`, at least `nsteps_todo` but exceeding
it by up to `nsave - 1` steps when `nsave` does not divide `nsteps_todo`. -/
theorem C1_amended (env : Env) (cfg : Config) (pf : FileState PydeCkpt)
    (ef : FileState EmceeCkpt) (optF : FileState OptCkpt) (t : SampleTrace)
    (h : pyorbit_emcee env cfg pf ef optF = .ok (.sampled t))
    (hn : 0 < t.mcAtLoop.emcee_parameters.nsave) :
    mcmcSteps t.events =
      List.replicate (ceilDivNat t.nstepsTodo t.mcAtLoop.emcee_parameters.nsave)
        t.mcAtLoop.emcee_parameters.nsave ∧
    t.nstepsTodo ≤ (mcmcSteps t.events).sum ∧
    (mcmcSteps t.events).sum < t.nstepsTodo + t.mcAtLoop.emcee_parameters.nsave := by
  obtain ⟨e, ht, hpre, -, -⟩ := run_ok_sampled env cfg pf ef optF t h
  subst ht
  simp only [runSamplingPhase] at hn ⊢
  rw [mcmcSteps_append, mcmcSteps_append, hpre, mcmcSteps_loopEvents _ _ _ hn]
  have hdummy : mcmcSteps [Event.dummyFile] = [] := rfl
  rw [hdummy]
  simp only [List.nil_append, List.append_nil]
  have hb := ceilDivNat_bounds e.todo e.mc.emcee_parameters.nsave hn
  exact ⟨by simp, by rw [List.sum_const_nat]; exact hb.1,
    by rw [List.sum_const_nat]; exact hb.2⟩

/-- C1, witness for the amended theorem at the concrete fresh run. -/
theorem C1_amended_witness :
    pyorbit_emcee envT cfgT .absent .absent .absent = .ok (.sampled tC1) ∧
    0 < tC1.mcAtLoop.emcee_parameters.nsave ∧
    (mcmcSteps tC1.events =
      List.replicate (ceilDivNat tC1.nstepsTodo tC1.mcAtLoop.emcee_parameters.nsave)
        tC1.mcAtLoop.emcee_parameters.nsave ∧
     tC1.nstepsTodo ≤ (mcmcSteps tC1.events).sum ∧
     (mcmcSteps tC1.events).sum < tC1.nstepsTodo + tC1.mcAtLoop.emcee_parameters.nsave) :=
  ⟨rfl, by decide, C1_amended envT cfgT .absent .absent .absent tC1 rfl (by decide)⟩

/-! ## Claim C2 -/

/-- C2, counterexample: with legacy index `{a:0, b:1}` and current index
`{b:0, d:1}`, the remap of a vector (and of a population) raises a
`KeyError` on `d` — modelled as `none` — instead of terminating normally
with `d`'s destination value untouched. -/
theorem C2_counterexample :
    remapVec (0 : Int) [("b", 0), ("d", 1)] [("a", 0), ("b", 1)] [5, 7] [5, 7] = none ∧
    remapPop [("b", 0), ("d", 1)] [("a", 0), ("b", 1)] [[5, 7]] (zerosPop 1 2) = none :=
  ⟨rfl, rfl⟩

/-- C2, amended: for every vector or population remapped from a legacy
index to the current one, every name present in both indexes has its value
copied from its legacy position to its current position, a name present
only in the legacy index is dropped, and destination positions not named
by the current index keep their pre-existing values — but a name present
only in the current index makes the remap fail with a lookup error
(Python `KeyError`) rather than terminate normally; populations are
remapped row-wise exactly like vectors. -/
theorem C2_amended (current legacy : List (String × Nat)) (src dest : List Int)
    (hpos : (current.map Prod.snd).Nodup) :
    ((∀ p ∈ current, (thetaLookup legacy p.1).isSome) →
      ∃ out, remapVec (0 : Int) current legacy src dest = some out ∧
        out.length = dest.length ∧
        (∀ (name : String) (i j : Nat), (name, i) ∈ current →
          thetaLookup legacy name = some j → i < dest.length →
          out.getD i 0 = src.getD j 0) ∧
        (∀ i : Nat, i ∉ current.map Prod.snd → out.getD i 0 = dest.getD i 0)) ∧
    (∀ p ∈ current, thetaLookup legacy p.1 = none →
      remapVec (0 : Int) current legacy src dest = none ∧
      (∀ srcP destP : List (List Int), remapPop current legacy srcP destP = none)) ∧
    (∀ (srcP destP : List (List Int)) (k : Nat) (rowS rowD : List Int),
      srcP.length = destP.length → srcP[k]? = some rowS → destP[k]? = some rowD →
      (remapPop current legacy srcP destP).map (fun out => out[k]?) =
        (remapVec (0 : Int) current legacy rowS rowD).map some) :=
  ⟨fun hcov => remapVec_spec 0 current legacy src dest hcov hpos,
   fun p hp hnone =>
     ⟨remapVec_fail 0 current legacy src dest p hp hnone,
      fun srcP destP => remapPop_fail current legacy srcP destP p hp hnone⟩,
   fun srcP destP k rowS rowD hlen hs hd =>
     remapPop_row current legacy srcP destP hlen k rowS rowD hs hd⟩

/-- C2, witness at legacy `{a:0, b:1, c:2}`, current `{b:0, c:1}`:
the remap succeeds and copies values, as checked concretely. -/
theorem C2_amended_witness :
    (([(("b" : String), (0 : Nat)), ("c", 1)]).map Prod.snd).Nodup ∧
    remapVec (0 : Int) [("b", 0), ("c", 1)] [("a", 0), ("b", 1), ("c", 2)]
      [5, 7, 9] [100, 200] = some [7, 9] ∧
    ((∀ p ∈ [(("b" : String), (0 : Nat)), ("c", 1)],
        (thetaLookup [("a", 0), ("b", 1), ("c", 2)] p.1).isSome) →
      ∃ out, remapVec (0 : Int) [("b", 0), ("c", 1)] [("a", 0), ("b", 1), ("c", 2)]
          [5, 7, 9] [100, 200] = some out ∧
        out.length = ([100, 200] : List Int).length ∧
        (∀ (name : String) (i j : Nat), (name, i) ∈ [(("b" : String), (0 : Nat)), ("c", 1)] →
          thetaLookup [("a", 0), ("b", 1), ("c", 2)] name = some j →
          i < ([100, 200] : List Int).length →
          out.getD i 0 = ([5, 7, 9] : List Int).getD j 0) ∧
        (∀ i : Nat, i ∉ ([(("b" : String), (0 : Nat)), ("c", 1)]).map Prod.snd →
          out.getD i 0 = ([100, 200] : List Int).getD i 0)) ∧
    (∀ p ∈ [(("b" : String), (0 : Nat)), ("c", 1)],
      thetaLookup [("a", 0), ("b", 1), ("c", 2)] p.1 = none →
      remapVec (0 : Int) [("b", 0), ("c", 1)] [("a", 0), ("b", 1), ("c", 2)]
        [5, 7, 9] [100, 200] = none ∧
      (∀ srcP destP : List (List Int),
        remapPop [("b", 0), ("c", 1)] [("a", 0), ("b", 1), ("c", 2)] srcP destP = none)) ∧
    (∀ (srcP destP : List (List Int)) (k : Nat) (rowS rowD : List Int),
      srcP.length = destP.length → srcP[k]? = some rowS → destP[k]? = some rowD →
      (remapPop [("b", 0), ("c", 1)] [("a", 0), ("b", 1), ("c", 2)] srcP destP).map
          (fun out => out[k]?) =
        (remapVec (0 : Int) [("b", 0), ("c", 1)] [("a", 0), ("b", 1), ("c", 2)]
          rowS rowD).map some) :=
  ⟨by decide, rfl,
   C2_amended [("b", 0), ("c", 1)] [("a", 0), ("b", 1), ("c", 2)] [5, 7, 9] [100, 200]
     (by decide)⟩

/-! ## Claim C3 -/

/-- C3, counterexample: with all three checkpoints present (ensemble,
population-optimizer, and prior-optimize), resolution still takes the
ensemble branch, but the starting vector surfacing at the sampling loop is
the optimize checkpoint's `[99, 98]`, not the ensemble checkpoint's
`[7, 8]` — the optimize-stage load on lines 51-56 runs after the ensemble
load and overwrites `starting_point` and `theta_dict`. -/
theorem C3_counterexample :
    (pyorbit_emcee envT cfgT (.present pcC3) (.present ecC3) (.present ocC3)).map
        (fun r => (branchOf r, spAtLoopOf r, thetaAtLoopOf r)) =
      .ok (some .resumeEmcee, some [99, 98], some (some [("a", 0), ("b", 1)])) ∧
    ecC3.starting_point = [7, 8] ∧ ocC3.starting_point = [99, 98] :=
  ⟨rfl, rfl, rfl⟩

/-- C3, amended: when both an ensemble and a population-optimizer
checkpoint are present and no prior-optimize checkpoint is, resolution
takes the ensemble path — never the population-optimizer path — and the
resumed container, population, starting vector, theta dictionary and
sampler state are the ensemble checkpoint's.  (When a prior-optimize
checkpoint is also present, the branch taken is still the ensemble one,
but the starting vector and theta dictionary are overwritten with the
optimize checkpoint's contents.) -/
theorem C3_amended (env : Env) (cfg : Config) (pc : PydeCkpt) (ec : EmceeCkpt)
    (r : RunResult)
    (h : pyorbit_emcee env cfg (.present pc) (.present ec) .absent = .ok r) :
    branchOf r ≠ some .resumePyde ∧
    (∀ t, r = .sampled t →
      t.branch = .resumeEmcee ∧
      t.mcAtLoop = resumedContainer cfg ec ∧
      t.populationAtLoop = ec.population ∧
      t.startingPointAtLoop = ec.starting_point ∧
      t.thetaAtLoop = some ec.theta_dict ∧
      t.stateAtLoop = some ec.state) := by
  obtain ⟨-, -, -, -, hcase⟩ :=
    run_ok_cases env cfg (.present pc) (.present ec) .absent r h
  rcases hcase with ⟨ec', hef, hres⟩ | ⟨hef, -⟩
  · injection hef with he
    subst he
    rcases resumeEmceePath_cases cfg (loadOf (.absent : FileState OptCkpt)) ec r hres with
      ⟨-, hr⟩ | ⟨-, -, hr⟩ | ⟨-, -, hr⟩ <;> subst hr
    · exact ⟨by simp [branchOf], fun t ht => absurd ht (by simp)⟩
    · exact ⟨by simp [branchOf], fun t ht => absurd ht (by simp)⟩
    · refine ⟨by simp [branchOf, runSamplingPhase, resumeEntry], fun t ht => ?_⟩
      injection ht with ht'
      subst ht'
      exact ⟨rfl, rfl, rfl, rfl, rfl, rfl⟩
  · exact absurd hef (by simp)

/-- C3, witness for the amended theorem: both checkpoints present, no
optimize checkpoint; the ensemble checkpoint's content surfaces. -/
theorem C3_amended_witness :
    pyorbit_emcee envT cfgT (.present pcC3) (.present ecC3) .absent = .ok rC3 ∧
    rC3 = .sampled tC3 ∧
    branchOf rC3 ≠ some .resumePyde ∧
    (tC3.branch = .resumeEmcee ∧
     tC3.mcAtLoop = resumedContainer cfgT ecC3 ∧
     tC3.populationAtLoop = ecC3.population ∧
     tC3.startingPointAtLoop = ecC3.starting_point ∧
     tC3.thetaAtLoop = some ecC3.theta_dict ∧
     tC3.stateAtLoop = some ecC3.state) := by
  have hmain := C3_amended envT cfgT pcC3 ecC3 rC3 rfl
  exact ⟨rfl, rfl, hmain.1, hmain.2 tC3 rfl⟩

/-! ## Claim C4 -/

/-- C4: resuming an ensemble checkpoint whose completed step count
(`chain.shape[1] * thin`) meets or exceeds the configured target `nsteps`
reports the summary and terminates successfully with zero sampler
invocations. -/
theorem C4_confirmed (env : Env) (cfg : Config) (pf : FileState PydeCkpt)
    (optF : FileState OptCkpt) (ec : EmceeCkpt)
    (hE : env.emceeInstalled = true) (hpf : pf ≠ .corrupt) (hof : optF ≠ .corrupt)
    (hdone : cfg.nsteps ≤ completedSteps ec) :
    (pyorbit_emcee env cfg pf (.present ec) optF).map samplerInvocations = .ok 0 ∧
    (pyorbit_emcee env cfg pf (.present ec) optF).map isComplete = .ok true := by
  have hrun : pyorbit_emcee env cfg pf (.present ec) optF =
      .ok (.alreadyComplete (resumedContainerPre cfg ec) (completedSteps ec)) := by
    rw [pyorbit_emcee_intact env cfg pf (.present ec) optF hE hpf (by simp) hof]
    simp only [loadOf]
    rw [afterProbes_someEmcee, resumeEmceePath,
      if_pos (show (resumedContainerPre cfg ec).emcee_parameters.nsteps ≤
        completedSteps ec from hdone)]
  rw [hrun]
  exact ⟨rfl, rfl⟩

/-- C4, witness: a checkpoint with 300 completed steps against a target of
250 short-circuits. -/
theorem C4_witness :
    envT.emceeInstalled = true ∧
    (FileState.absent : FileState PydeCkpt) ≠ .corrupt ∧
    (FileState.absent : FileState OptCkpt) ≠ .corrupt ∧
    cfgT.nsteps ≤ completedSteps ecDone ∧
    ((pyorbit_emcee envT cfgT .absent (.present ecDone) .absent).map samplerInvocations =
        .ok 0 ∧
     (pyorbit_emcee envT cfgT .absent (.present ecDone) .absent).map isComplete =
        .ok true) :=
  ⟨rfl, by simp, by simp, by decide,
   C4_confirmed envT cfgT .absent .absent ecDone rfl (by simp) (by simp) (by decide)⟩

/-! ## Claim C5 -/

/-- C5: on every run that resumes an ensemble checkpoint, the completed
step count used by the driver is the chain history's step dimension times
the thinning factor stored in the reloaded container
(`sampler_chain.shape[1] * thin`, lines 70-71) — the checkpoint's stored
`completed_nsteps` counter, which is universally quantified here, never
enters. -/
theorem C5_confirmed (env : Env) (cfg : Config) (pf : FileState PydeCkpt)
    (optF : FileState OptCkpt) (ec : EmceeCkpt) (r : RunResult)
    (h : pyorbit_emcee env cfg pf (.present ec) optF = .ok r) :
    completedOf r = some (ec.chainSteps * ec.mc.emcee_parameters.thin) := by
  obtain ⟨-, -, -, -, hcase⟩ := run_ok_cases env cfg pf (.present ec) optF r h
  rcases hcase with ⟨ec', hef, hres⟩ | ⟨hef, -⟩
  · injection hef with he
    subst he
    rcases resumeEmceePath_cases cfg (loadOf optF) ec r hres with
      ⟨-, hr⟩ | ⟨-, -, hr⟩ | ⟨-, -, hr⟩ <;> subst hr <;> rfl
  · exact absurd hef (by simp)

/-- C5, witness: the stored counter of `ecDone` is 0, yet the reported
completed count is 300 = 300 × 1. -/
theorem C5_witness :
    pyorbit_emcee envT cfgT .absent (.present ecDone) .absent = .ok rC5 ∧
    ecDone.mc.emcee_parameters.completed_nsteps = 0 ∧
    completedOf rC5 = some (ecDone.chainSteps * ecDone.mc.emcee_parameters.thin) :=
  ⟨rfl, rfl, C5_confirmed envT cfgT .absent .absent ecDone rC5 rfl⟩

/-! ## Claim C6 -/

/-- C6, counterexample: resuming an incomplete ensemble checkpoint whose
legacy index `{a:0, b:1}` differs from the current index `{a:1, b:0}`, the
population entering the sampling loop is the checkpoint's `[[10, 20]]`
unchanged — whereas remapping it through the current index would give
`[[20, 10]]`; no remap is applied on the resume path (the branch is
`pass`, lines 178-180). -/
theorem C6_counterexample :
    (pyorbit_emcee envT cfg6 .absent (.present ecC6) .absent).map
        (fun r => (popAtLoopOf r, spAtLoopOf r)) =
      .ok (some [[10, 20]], some [10, 20]) ∧
    (resumedContainer cfg6 ecC6).theta_dictionary = [("a", 1), ("b", 0)] ∧
    ecC6.theta_dict = [("a", 0), ("b", 1)] ∧
    remapPop (resumedContainer cfg6 ecC6).theta_dictionary ecC6.theta_dict
      [[10, 20]] [[10, 20]] = some [[20, 10]] :=
  ⟨rfl, rfl, rfl, rfl⟩

/-- C6, amended: on every run resuming an incomplete ensemble checkpoint
with a reusable sampler handle — whatever the other checkpoint files hold —
no remap through the current ParameterIndex is applied before the sampling
loop: the Population and SamplerState enter exactly as stored in the
ensemble checkpoint, and the StartingVector and theta dictionary enter as
stored in the ensemble checkpoint unless a prior-optimize checkpoint is
also present, in which case that checkpoint's stored starting vector and
theta dictionary (which the later load of lines 51-56 overwrote) enter —
again without remapping. -/
theorem C6_amended (env : Env) (cfg : Config) (pf : FileState PydeCkpt)
    (ec : EmceeCkpt) (optF : FileState OptCkpt) (t : SampleTrace)
    (h : pyorbit_emcee env cfg pf (.present ec) optF = .ok (.sampled t)) :
    t.branch = .resumeEmcee ∧
    t.populationAtLoop = ec.population ∧
    t.stateAtLoop = some ec.state ∧
    t.startingPointAtLoop =
      (match loadOf optF with
       | some oc => oc.starting_point
       | none => ec.starting_point) ∧
    t.thetaAtLoop =
      some (match loadOf optF with
            | some oc => oc.theta_dict
            | none => ec.theta_dict) ∧
    t.completedUsed = some (completedSteps ec) ∧
    t.sampledStart = completedSteps ec ∧
    t.nstepsTodo = cfg.nsteps - completedSteps ec := by
  obtain ⟨-, -, -, -, hcase⟩ :=
    run_ok_cases env cfg pf (.present ec) optF (.sampled t) h
  rcases hcase with ⟨ec', hef, hres⟩ | ⟨hef, -⟩
  · injection hef with he
    subst he
    rcases resumeEmceePath_cases cfg (loadOf optF) ec _ hres with
      ⟨-, hr⟩ | ⟨-, -, hr⟩ | ⟨-, -, hr⟩
    · exact absurd hr (by simp)
    · exact absurd hr (by simp)
    · injection hr with hr'
      subst hr'
      exact ⟨rfl, rfl, rfl, rfl, rfl, rfl, rfl, rfl⟩
  · exact absurd hef (by simp)

/-- C6, witness for the amended theorem, exercised twice: at the concrete
swapped-index resume with no other checkpoint (the stored ensemble values
enter unmapped) and at a resume with pyde and optimize checkpoints also
present (the optimize checkpoint's stored values enter, still unmapped). -/
theorem C6_amended_witness :
    pyorbit_emcee envT cfg6 .absent (.present ecC6) .absent = .ok (.sampled tC6) ∧
    (tC6.branch = .resumeEmcee ∧
     tC6.populationAtLoop = ecC6.population ∧
     tC6.stateAtLoop = some ecC6.state ∧
     tC6.startingPointAtLoop = ecC6.starting_point ∧
     tC6.thetaAtLoop = some ecC6.theta_dict ∧
     tC6.completedUsed = some (completedSteps ecC6) ∧
     tC6.sampledStart = completedSteps ecC6 ∧
     tC6.nstepsTodo = cfg6.nsteps - completedSteps ecC6) ∧
    pyorbit_emcee envT cfgT (.present pcC3) (.present ecC3) (.present ocC3) =
      .ok (.sampled tC6opt) ∧
    (tC6opt.branch = .resumeEmcee ∧
     tC6opt.populationAtLoop = ecC3.population ∧
     tC6opt.stateAtLoop = some ecC3.state ∧
     tC6opt.startingPointAtLoop = ocC3.starting_point ∧
     tC6opt.thetaAtLoop = some ocC3.theta_dict ∧
     tC6opt.completedUsed = some (completedSteps ecC3) ∧
     tC6opt.sampledStart = completedSteps ecC3 ∧
     tC6opt.nstepsTodo = cfgT.nsteps - completedSteps ecC3) :=
  ⟨rfl, C6_amended envT cfg6 .absent ecC6 .absent tC6 rfl,
   rfl, C6_amended envT cfgT (.present pcC3) ecC3 (.present ocC3) tC6opt rfl⟩

/-! ## Claim C7 -/

/-- C7: the PyDE differential-evolution optimizer is invoked exactly when
no ensemble checkpoint, no population-optimizer checkpoint, and no prior
optimize checkpoint exist and no user starting vector is declared; and
whenever it is invoked, the population-optimizer checkpoint is persisted
before any sampler call, whether or not the bounds-recentering correction
triggered (both cases of `recenter_bounds_flag` are covered by the
quantification). -/
theorem C7_confirmed (env : Env) (cfg : Config) (pf : FileState PydeCkpt)
    (ef : FileState EmceeCkpt) (optF : FileState OptCkpt) (r : RunResult)
    (h : pyorbit_emcee env cfg pf ef optF = .ok r) :
    (pydeInvoked r = true ↔
      (pf = .absent ∧ ef = .absent ∧ optF = .absent ∧
        cfg.freshMC.starting_point_flag = false)) ∧
    (pydeInvoked r = true →
      pydeCkptSaved r = true ∧
      occursBefore isPydeSaveEvent isRunMcmcEvent r.events = true) := by
  obtain ⟨-, hpf, -, hof, hcase⟩ := run_ok_cases env cfg pf ef optF r h
  rcases hcase with ⟨ec, hef, hres⟩ | ⟨hef, hfresh⟩
  · -- ensemble resume: PyDE is never invoked
    have hinv : pydeInvoked r = false := by
      rcases resumeEmceePath_cases cfg (loadOf optF) ec r hres with
        ⟨-, hr⟩ | ⟨-, -, hr⟩ | ⟨-, -, hr⟩ <;> subst hr
      · rfl
      · rfl
      · rw [pydeInvoked_runSamplingPhase]
        rfl
    rw [hinv]
    subst hef
    exact ⟨by simp, by simp⟩
  · subst hef
    rcases freshOrPydePath_cases env cfg (loadOf pf) (loadOf optF) r hfresh with
      ⟨pc, pop, bds, hpl, hr⟩ | ⟨oc, sp, hpl, hol, hr⟩ |
      ⟨hpl, hol, hflag, hr⟩ | ⟨hpl, hol, hflag, hpyde, hr⟩
    · -- pyde-resume branch: not invoked; a pyde checkpoint is present
      subst hr
      rw [pydeInvoked_runSamplingPhase]
      have hpresent := loadOf_some pf pc hpl
      subst hpresent
      exact ⟨by simp [pydeEntry, hasEvent], by simp [pydeEntry, hasEvent]⟩
    · -- optimize-resume branch: not invoked; an optimize checkpoint is present
      subst hr
      rw [pydeInvoked_runSamplingPhase]
      have hpresent := loadOf_some optF oc hol
      subst hpresent
      exact ⟨by simp [jitterEntry, hasEvent], by simp [jitterEntry, hasEvent]⟩
    · -- user starting point: not invoked; the flag is set
      subst hr
      rw [pydeInvoked_runSamplingPhase]
      have hflag' : cfg.freshMC.starting_point_flag = true := by
        rw [← freshPoolMC_flag env cfg]
        exact hflag
      exact ⟨by simp [jitterEntry, hasEvent, hflag'], by simp [jitterEntry, hasEvent]⟩
    · -- fallback: invoked, and the checkpoint save precedes all sampling
      subst hr
      have hpa := loadOf_none pf hpl hpf
      have hoa := loadOf_none optF hol hof
      have hflag' : cfg.freshMC.starting_point_flag = false := by
        rw [← freshPoolMC_flag env cfg]
        exact hflag
      constructor
      · rw [pydeInvoked_runSamplingPhase]
        rcases fallbackEntry_preEvents env (freshPoolMC env cfg) with hp | hp <;>
          rw [hp] <;> simp [hasEvent, hpa, hoa, hflag']
      · intro _
        constructor
        · rw [pydeCkptSaved_runSamplingPhase]
          rcases fallbackEntry_preEvents env (freshPoolMC env cfg) with hp | hp <;>
            rw [hp] <;> rfl
        · simp only [RunResult.events, runSamplingPhase]
          rcases fallbackEntry_preEvents env (freshPoolMC env cfg) with hp | hp <;>
            rw [hp] <;>
            simp [occursBefore, isPydeSaveEvent, isRunMcmcEvent]

/-- C7, witness: with no checkpoints and no user starting vector, PyDE runs
and its checkpoint is persisted before the first sampler call. -/
theorem C7_witness :
    pyorbit_emcee envT cfgF .absent .absent .absent = .ok rC7 ∧
    cfgF.freshMC.starting_point_flag = false ∧
    pydeInvoked rC7 = true ∧
    (pydeCkptSaved rC7 = true ∧
     occursBefore isPydeSaveEvent isRunMcmcEvent rC7.events = true) :=
  ⟨rfl, rfl, by decide,
   (C7_confirmed envT cfgF .absent .absent .absent rC7 rfl).2 (by decide)⟩

/-! ## Claim C8 -/

/-- C8: probing a stage's checkpoint never raises for a missing file — the
`except FileNotFoundError: pass` blocks turn absence into "try the next
tier" — while a corrupt (present but undeserializable) checkpoint at any
stage propagates and terminates the run with an error naming that stage,
never silently falling back to a lower tier. -/
theorem C8_confirmed (env : Env) (cfg : Config) (hE : env.emceeInstalled = true) :
    (@probe PydeCkpt .pyde .absent = .ok none) ∧
    (@probe EmceeCkpt .emcee .absent = .ok none) ∧
    (@probe OptCkpt .optimize .absent = .ok none) ∧
    (∀ (ef : FileState EmceeCkpt) (optF : FileState OptCkpt),
      pyorbit_emcee env cfg .corrupt ef optF = .error (.corruptCheckpoint .pyde)) ∧
    (∀ (pf : FileState PydeCkpt) (optF : FileState OptCkpt), pf ≠ .corrupt →
      pyorbit_emcee env cfg pf .corrupt optF = .error (.corruptCheckpoint .emcee)) ∧
    (∀ (pf : FileState PydeCkpt) (ef : FileState EmceeCkpt),
      pf ≠ .corrupt → ef ≠ .corrupt →
      pyorbit_emcee env cfg pf ef .corrupt = .error (.corruptCheckpoint .optimize)) := by
  refine ⟨rfl, rfl, rfl, ?_, ?_, ?_⟩
  · intro ef optF
    rw [pyorbit_emcee, if_neg (by simp [hE])]
    rfl
  · intro pf optF hpf
    rw [pyorbit_emcee, if_neg (by simp [hE]), probe_ok Stage.pyde pf hpf, Except_bind_ok]
    rfl
  · intro pf ef hpf hef
    rw [pyorbit_emcee, if_neg (by simp [hE]), probe_ok Stage.pyde pf hpf, Except_bind_ok,
      probe_ok Stage.emcee ef hef, Except_bind_ok]
    rfl

/-- C8, witness: absence probes succeed with `none`; a corrupt checkpoint
at each stage is fatal with that stage named. -/
theorem C8_witness :
    envT.emceeInstalled = true ∧
    @probe PydeCkpt .pyde .absent = .ok none ∧
    @probe EmceeCkpt .emcee .absent = .ok none ∧
    @probe OptCkpt .optimize .absent = .ok none ∧
    pyorbit_emcee envT cfgT .corrupt .absent .absent =
      .error (.corruptCheckpoint .pyde) ∧
    pyorbit_emcee envT cfgT .absent .corrupt .absent =
      .error (.corruptCheckpoint .emcee) ∧
    pyorbit_emcee envT cfgT .absent .absent .corrupt =
      .error (.corruptCheckpoint .optimize) := by
  have hmain := C8_confirmed envT cfgT rfl
  exact ⟨rfl, hmain.1, hmain.2.1, hmain.2.2.1,
    hmain.2.2.2.1 .absent .absent,
    hmain.2.2.2.2.1 .absent .absent (by simp),
    hmain.2.2.2.2.2 .absent .absent (by simp) (by simp)⟩

/-! ## Claim C9 -/

/-- C9, counterexample: a run resuming a completed ensemble checkpoint
terminates successfully (completion short-circuit) yet writes no
completion-marker artifact — `emcee_create_dummy_file` (line 404) is only
reached at the end of the sampling section, and the early return on
lines 104-107 bypasses it. -/
theorem C9_counterexample :
    (pyorbit_emcee envT cfgT .absent (.present ecDone) .absent).map
        (fun r => (isComplete r, dummyFileWritten r)) = .ok (true, false) := rfl

/-- C9, amended: the empty completion-marker artifact is written exactly
when a run terminates through the sampling section; the successful early
returns of the resume path (target already met, or legacy checkpoint
without a sampler handle) terminate without writing it. -/
theorem C9_amended (env : Env) (cfg : Config) (pf : FileState PydeCkpt)
    (ef : FileState EmceeCkpt) (optF : FileState OptCkpt) (r : RunResult)
    (h : pyorbit_emcee env cfg pf ef optF = .ok r) :
    dummyFileWritten r = isSampled r := by
  cases r with
  | alreadyComplete mc c => rfl
  | cannotResume mc c => rfl
  | sampled t =>
    obtain ⟨e, ht, -, -, -⟩ := run_ok_sampled env cfg pf ef optF t h
    subst ht
    simp only [dummyFileWritten, isSampled, RunResult.events]
    exact dummyFile_runSamplingPhase e

/-- C9, witness: a fresh sampled run writes the marker. -/
theorem C9_amended_witness :
    pyorbit_emcee envT cfgT .absent .absent .absent = .ok rC9 ∧
    dummyFileWritten rC9 = isSampled rC9 ∧
    isSampled rC9 = true :=
  ⟨rfl, C9_amended envT cfgT .absent .absent .absent rC9 rfl, by decide⟩

/-! ## Claim C10 -/

/-- C10: whenever the container entering the sampling section records
emcee major version `'2'`, its threading-pool flag has been forced off
(lines 168-169), and consequently every `run_mcmc` call of the run
executes outside a multiprocessing pool, regardless of the configured
worker-pool setting. -/
theorem C10_confirmed (env : Env) (cfg : Config) (pf : FileState PydeCkpt)
    (ef : FileState EmceeCkpt) (optF : FileState OptCkpt) (t : SampleTrace)
    (h : pyorbit_emcee env cfg pf ef optF = .ok (.sampled t))
    (hv : t.mcAtLoop.emcee_parameters.version = '2') :
    t.mcAtLoop.emcee_parameters.use_threading_pool = false ∧
    mcmcPools t.events = List.replicate (mcmcPools t.events).length false := by
  obtain ⟨e, ht, -, hpoolpre, hforce⟩ := run_ok_sampled env cfg pf ef optF t h
  subst ht
  simp only [runSamplingPhase] at hv ⊢
  have hutp : e.mc.emcee_parameters.use_threading_pool = false := hforce hv
  refine ⟨hutp, ?_⟩
  rw [mcmcPools_append, mcmcPools_append, hpoolpre]
  have hdummy : mcmcPools [Event.dummyFile] = [] := rfl
  rw [hdummy]
  simp only [List.nil_append, List.append_nil]
  rw [mcmcPools_loopEvents, hutp]
  simp

/-- C10, witness: a resumed version-2 container with the pool flag still
on in the checkpoint samples entirely without a pool. -/
theorem C10_witness :
    pyorbit_emcee envT cfgT .absent (.present ecC10) .absent = .ok (.sampled tC10) ∧
    ecC10.mc.emcee_parameters.use_threading_pool = true ∧
    tC10.mcAtLoop.emcee_parameters.version = '2' ∧
    (tC10.mcAtLoop.emcee_parameters.use_threading_pool = false ∧
     mcmcPools tC10.events = List.replicate (mcmcPools tC10.events).length false) :=
  ⟨rfl, rfl, by decide,
   C10_confirmed envT cfgT .absent (.present ecC10) .absent tC10 rfl (by decide)⟩

end PyOrbit
